import Mathlib

/-!
Verification of the Hurd metadata-journaling subsystem (libdiskfs journal).
The definitions below are a shallow embedding of the C sources:
`journal_writer.c`, `journal_replayer.c`, `journal_queue.c`, `journal.c`,
`journal_format.h`, `journal_globals.h`.  Machine integers are modelled as
`Nat` (with explicit `% 2 ^ w` where C performs a narrowing cast or can
overflow) and `Int` for signed `time_t` fields; the raw device is a map from
byte offsets to entry records plus a header slot; fallible I/O is driven by
an explicit environment of success flags.
-/

set_option maxRecDepth 8000
set_option maxHeartbeats 4000000

/-- Little-endian encoding of the low `w` bytes of a natural number, as the
packed C structs lay integers out on disk. -/
def leBytes : Nat → Nat → List Nat
  | 0, _ => []
  | w + 1, v => (v % 256) :: leBytes w (v / 256)

/-- Little-endian two's-complement encoding of a signed integer in `w` bytes
(`int64_t` fields `mtime` / `ctime` of `struct journal_payload_bin`). -/
def leBytesInt (w : Nat) (v : Int) : List Nat :=
  leBytes w ((v % ((2 : Int) ^ (8 * w))).toNat)

/-- A C `bool` occupies one byte: nonzero for true. -/
def boolByte (b : Bool) : Nat := if b then 1 else 0

/-- A fixed 256-byte NUL-padded string field (`char field[MAX_FIELD_LEN]`):
the journal logger truncates to 255 content bytes and NUL-terminates; the
byte list holds the NUL-free content. -/
def strField : List Nat → List Nat
  | s => s.take 255 ++ List.replicate (256 - (s.take 255).length) 0

/-- One shift-xor round of the bitwise CRC-32: shift right, conditionally
xor the reflected IEEE 802.3 polynomial 0xEDB88320. -/
def crcRound (c : Nat) : Nat :=
  if c % 2 = 1 then (c / 2) ^^^ 0xEDB88320 else c / 2

/-- Eight CRC rounds, one per bit of an input byte. -/
def crcByte : Nat → Nat → Nat
  | c, 0 => c
  | c, n + 1 => crcByte (crcRound c) n

/-- CRC-32 accumulator over a byte list.  The per-byte state is matched to a
numeral before the tail call so that evaluation inside proofs stays
iterative (the match forces the accumulator; both branches are the same
recursive call). -/
def crc32Acc : Nat → List Nat → Nat
  | c, [] => c
  | c, b :: bs =>
    match crcByte (c ^^^ (b % 256)) 8 with
    | 0 => crc32Acc 0 bs
    | c' + 1 => crc32Acc (c' + 1) bs

/-- Modelled from the spec: `crc32.c` is not under `src/` (only `crc32.h`
declares `uint32_t crc32(const void *data, size_t len)`); spec section 4.1
fixes it as the IEEE 802.3 CRC-32, computed here in its standard bitwise
form (init and final xor 0xFFFFFFFF, reflected polynomial 0xEDB88320). -/
def crc32 (data : List Nat) : Nat :=
  (crc32Acc 0xFFFFFFFF data) ^^^ 0xFFFFFFFF

/-- JOURNAL_MAGIC from journal_format.h. -/
def JOURNAL_MAGIC : Nat := 0x4A4E4C30

/-- JOURNAL_VERSION from journal_format.h. -/
def JOURNAL_VERSION : Nat := 1

/-- MAX_FIELD_LEN from journal_format.h. -/
def MAX_FIELD_LEN : Nat := 256

/-- JOURNAL_ENTRY_SIZE from journal_globals.h. -/
def JOURNAL_ENTRY_SIZE : Nat := 4096

/-- JOURNAL_RESERVED_SPACE from journal_globals.h. -/
def JOURNAL_RESERVED_SPACE : Nat := 4096

/-- RAW_DEVICE_SIZE from journal_globals.h (8 MiB). -/
def RAW_DEVICE_SIZE : Nat := 8 * 1024 * 1024

/-- JOURNAL_DATA_CAPACITY from journal_globals.h. -/
def JOURNAL_DATA_CAPACITY : Nat := RAW_DEVICE_SIZE - JOURNAL_RESERVED_SPACE

/-- JOURNAL_NUM_ENTRIES from journal_globals.h: the ring size `N` is derived
from the device size at compile time (2047 for the reference 8 MiB device).
The definitions below take `N` as an explicit parameter, as the spec's
scenarios instantiate it for smaller devices (e.g. `N = 4`). -/
def JOURNAL_NUM_ENTRIES : Nat := JOURNAL_DATA_CAPACITY / JOURNAL_ENTRY_SIZE

/-- The in-memory/on-disk payload record, `struct journal_payload_bin` of
journal_format.h.  Unsigned fields are `Nat`, `mtime`/`ctime` are `Int`
(`int64_t`), the six `char[MAX_FIELD_LEN]` strings are NUL-free byte lists. -/
structure PayloadBin where
  tx_id : Nat
  timestamp_ms : Nat
  parent_ino : Nat
  src_parent_ino : Nat
  dst_parent_ino : Nat
  ino : Nat
  st_mode : Nat
  st_size : Nat
  st_nlink : Nat
  st_blocks : Nat
  mtime : Int
  ctime : Int
  uid : Nat
  gid : Nat
  has_mode : Bool
  has_size : Bool
  has_uid : Bool
  has_gid : Bool
  action : List Nat
  name : List Nat
  old_name : List Nat
  new_name : List Nat
  target : List Nat
  extra : List Nat
deriving DecidableEq

/-- Byte-exact serialization of `struct journal_payload_bin` (packed,
little-endian), in declaration order of journal_format.h. -/
def payloadBytes (p : PayloadBin) : List Nat :=
  leBytes 8 p.tx_id ++ leBytes 8 p.timestamp_ms ++
  leBytes 4 p.parent_ino ++ leBytes 4 p.src_parent_ino ++
  leBytes 4 p.dst_parent_ino ++ leBytes 4 p.ino ++
  leBytes 4 p.st_mode ++ leBytes 8 p.st_size ++
  leBytes 8 p.st_nlink ++ leBytes 8 p.st_blocks ++
  leBytesInt 8 p.mtime ++ leBytesInt 8 p.ctime ++
  leBytes 4 p.uid ++ leBytes 4 p.gid ++
  [boolByte p.has_mode, boolByte p.has_size, boolByte p.has_uid,
   boolByte p.has_gid] ++
  strField p.action ++ strField p.name ++ strField p.old_name ++
  strField p.new_name ++ strField p.target ++ strField p.extra

/-- sizeof(struct journal_payload_bin): 8+8+4*4+4+8+8+8+8+8+4+4+4+6*256. -/
def payloadBinSize : Nat := 1624

/-- The on-disk header, `struct journal_header` of journal_globals.h. -/
structure HeaderBin where
  magic : Nat
  version : Nat
  start_index : Nat
  end_index : Nat
  crc32 : Nat
deriving DecidableEq

/-- Byte-exact serialization of the packed header struct. -/
def headerBytes (h : HeaderBin) : List Nat :=
  leBytes 4 h.magic ++ leBytes 4 h.version ++
  leBytes 8 h.start_index ++ leBytes 8 h.end_index ++ leBytes 4 h.crc32

/-- The header record the writer persists for indices `(s, e)`: magic,
version, the indices, and its CRC computed over the header with the CRC
field zeroed (`persist_header_with_retry`, journal_writer.c). -/
def journal_mk_header (s e : Nat) : HeaderBin :=
  let h0 : HeaderBin := ⟨JOURNAL_MAGIC, JOURNAL_VERSION, s, e, 0⟩
  { h0 with crc32 := crc32 (headerBytes h0) }

/-- One fixed-size on-disk entry, `struct journal_entry_bin`: magic, version,
payload, zero padding (implicit), trailing CRC. -/
structure EntryBin where
  magic : Nat
  version : Nat
  payload : PayloadBin
  crc32 : Nat
deriving DecidableEq

/-- The entry buffer `journal_write_indexed` builds: magic and version set,
payload copied in, CRC field zeroed and then set to the CRC-32 over the
payload region only (`crc32(&entry->payload, sizeof payload)`). -/
def mkEntryBin (p : PayloadBin) : EntryBin :=
  { magic := JOURNAL_MAGIC, version := JOURNAL_VERSION, payload := p,
    crc32 := crc32 (payloadBytes p) }

/-- index_to_offset from journal_globals.h / journal_writer.c:
`JOURNAL_RESERVED_SPACE + (index % N) * JOURNAL_ENTRY_SIZE`. -/
def index_to_offset (N i : Nat) : Nat :=
  JOURNAL_RESERVED_SPACE + (i % N) * JOURNAL_ENTRY_SIZE

/-- The raw journal device at record granularity: the header region at
offset 0, and one slot per entry-aligned byte offset. -/
structure Disk where
  header : Option HeaderBin
  slots : Nat → Option EntryBin

/-- A fresh device with no valid header and no entries (a header short-read
or an all-zero header both make the writer fall back to indices (0,0)). -/
def emptyDisk : Disk := { header := none, slots := fun _ => none }

/-- Writing one entry buffer at a byte offset. -/
def diskWriteSlot (d : Disk) (o : Nat) (e : EntryBin) : Disk :=
  { d with slots := fun o' => if o' = o then some e else d.slots o' }

/-- Fault-injection environment for one writer call: whether `get_sync_fd`
succeeds, whether the header `pread` fails with EIO, whether the k-th entry
write (lseek + write) succeeds, and whether the k-th header `pwrite` attempt
succeeds. -/
structure IOEnv where
  fd_ok : Bool
  header_read_eio : Bool
  write_ok : Nat → Bool
  header_write_ok : Nat → Bool

/-- The environment in which every I/O operation succeeds. -/
def IOEnv.allOk : IOEnv :=
  { fd_ok := true, header_read_eio := false,
    write_ok := fun _ => true, header_write_ok := fun _ => true }

/-- initialize_indices of journal_writer.c: an EIO on the header read fails
the call; a short read, an invalid magic/version/CRC, or out-of-bounds
indices fall back to a fresh `(0, 0)`; otherwise the stored indices. -/
def initialize_indices (io : IOEnv) (N : Nat) (d : Disk) : Option (Nat × Nat) :=
  if io.header_read_eio then none
  else
    match d.header with
    | none => some (0, 0)
    | some h =>
      let h0 : HeaderBin := { h with crc32 := 0 }
      if crc32 (headerBytes h0) ≠ h.crc32 ∨ h.magic ≠ JOURNAL_MAGIC ∨
         h.version ≠ JOURNAL_VERSION then some (0, 0)
      else if N ≤ h.start_index ∨ N ≤ h.end_index then some (0, 0)
      else some (h.start_index, h.end_index)

/-- persist_header_with_retry of journal_writer.c: up to `retries` `pwrite`
attempts of the freshly built header (attempt counter `k` indexes
`io.header_write_ok`); true and the updated device on success. -/
def persist_header_with_retry (io : IOEnv) (d : Disk) (s e retries k : Nat) :
    Bool × Disk :=
  match retries with
  | 0 => (false, d)
  | r + 1 =>
    if io.header_write_ok k then
      (true, { d with header := some (journal_mk_header s e) })
    else persist_header_with_retry io d s e r (k + 1)

/-- journal_write_indexed of journal_writer.c: rejects oversized payloads,
computes `next = (end + 1) % N`, evicts the oldest entry when the ring is
about to close (`next == start`), writes the entry buffer at
`index_to_offset end` (failure injected through `ok`), and advances `end`.
Both callers pass exactly `len = sizeof(struct journal_payload_bin)`, so the
`memcpy` of `len` bytes copies the whole payload. -/
def journal_write_indexed (N : Nat) (ok : Bool) (d : Disk) (p : PayloadBin)
    (len e s : Nat) : Option (Disk × Nat × Nat) :=
  if payloadBinSize < len then none
  else
    let next := (e + 1) % N
    let s' := if next = s then (s + 1) % N else s
    if ok then some (diskWriteSlot d (index_to_offset N e) (mkEntryBin p), next, s')
    else none

/-- The per-entry loop of journal_write_raw: each batch element must have
the expected payload length, then `journal_write_indexed` runs with the k-th
write's fault flag; on any failure the loop stops, reporting the device as
written so far. -/
def write_raw_loop (io : IOEnv) (N : Nat) :
    List (PayloadBin × Nat) → Nat → Disk → Nat → Nat → Bool × Disk × Nat × Nat
  | [], _, d, e, s => (true, d, e, s)
  | (p, len) :: rest, k, d, e, s =>
    if len ≠ payloadBinSize then (false, d, e, s)
    else
      match journal_write_indexed N (io.write_ok k) d p len e s with
      | none => (false, d, e, s)
      | some (d', e', s') => write_raw_loop io N rest (k + 1) d' e' s'

/-- Writer-module state: the `dropped_txs` counter and the `replayed_once`
flag (both static in journal_writer.c). -/
structure WriterSt where
  dropped_txs : Nat
  replayed_once : Bool
deriving DecidableEq

/-- journal_write_raw of journal_writer.c (the batch path): on fd failure or
an EIO header read the whole batch is dropped (`dropped_txs += count`); the
one-shot `journal_replay_and_validate` (read-only on the device) marks
`replayed_once`; the loop writes each entry, on any failure dropping
`count` transactions and aborting; after a fully successful loop, the header
is persisted with 3 retries (failure only logged — still returns true). -/
def journal_write_raw (io : IOEnv) (N : Nat) (w : WriterSt) (d : Disk)
    (batch : List (PayloadBin × Nat)) : Bool × WriterSt × Disk :=
  let count := batch.length
  if io.fd_ok = false then
    (false, { w with dropped_txs := w.dropped_txs + count }, d)
  else
    match initialize_indices io N d with
    | none => (false, { w with dropped_txs := w.dropped_txs + count }, d)
    | some (s, e) =>
      let w' := { w with replayed_once := true }
      match write_raw_loop io N batch 0 d e s with
      | (false, d1, _, _) =>
        (false, { w' with dropped_txs := w'.dropped_txs + count }, d1)
      | (true, d1, e1, s1) =>
        (true, w', (persist_header_with_retry io d1 s1 e1 3 0).2)

/-- journal_write_raw_sync of journal_writer.c: aborts unless
`replayed_once` is already set (the code's "Device not ready yet" gate —
note it tests `replayed_once`, not the global `journal_device_ready`, which
is passed here only to record its value at call time and is never read);
then fd, header read, one entry write at the current end index, fsync,
index advance with eviction, and header persist with 3 retries. -/
def journal_write_raw_sync (io : IOEnv) (N : Nat) (device_ready : Bool)
    (w : WriterSt) (d : Disk) (p : PayloadBin) : Bool × Disk :=
  if w.replayed_once = false then (false, d)
  else if io.fd_ok = false then (false, d)
  else
    match initialize_indices io N d with
    | none => (false, d)
    | some (s, e) =>
      if io.write_ok 0 = false then (false, d)
      else
        let d1 := diskWriteSlot d (index_to_offset N e) (mkEntryBin p)
        let next := (e + 1) % N
        let s' := if next = s then (s + 1) % N else s
        match persist_header_with_retry io d1 s' next 3 0 with
        | (false, d2) => (false, d2)
        | (true, d2) => (true, d2)

/-- The header validation shared verbatim by journal_replay_from_file and
journal_replay_and_validate: short read, CRC/magic/version mismatch, or
out-of-bounds indices end the replay before any entry is walked. -/
def read_header_indices (N : Nat) (d : Disk) : Option (Nat × Nat) :=
  match d.header with
  | none => none
  | some h =>
    let h0 : HeaderBin := { h with crc32 := 0 }
    if crc32 (headerBytes h0) ≠ h.crc32 ∨ h.magic ≠ JOURNAL_MAGIC ∨
       h.version ≠ JOURNAL_VERSION then none
    else if N ≤ h.start_index ∨ N ≤ h.end_index then none
    else some (h.start_index, h.end_index)

/-- The entry walk of journal_replay_from_file (journal_replayer.c), which
runs from `start_index` until `end_index` — exactly
`(end + N - start) % N` iterations, counted down by `steps`.  A missing
slot (incomplete read) stops the walk leaving `all_good` true; bad magic,
bad version, a CRC mismatch, an empty `action`, or a zero `ino` stop it
with `all_good` false; a valid entry is appended to the collected list.
This walk performs no timestamp or tx_id ordering checks. -/
def replay_collect_loop (N : Nat) (d : Disk) : Nat → Nat → List PayloadBin × Bool
  | 0, _ => ([], true)
  | steps + 1, index =>
    match d.slots (index_to_offset N index) with
    | none => ([], true)
    | some entry =>
      if entry.magic ≠ JOURNAL_MAGIC then ([], false)
      else if entry.version ≠ JOURNAL_VERSION then ([], false)
      else if crc32 (payloadBytes entry.payload) ≠ entry.crc32 then ([], false)
      else if entry.payload.action.length = 0 then ([], false)
      else if entry.payload.ino = 0 then ([], false)
      else
        let r := replay_collect_loop N d steps ((index + 1) % N)
        (entry.payload :: r.1, r.2)

/-- journal_replay_from_file of journal_replayer.c, returning the walked
payloads in walk (ingest) order together with the `all_good` flag; `none`
when the header is unreadable or invalid.  (The C function logs each walked
entry in this order, then sorts and frees a local copy.) -/
def journal_replay_from_file (N : Nat) (d : Disk) :
    Option (List PayloadBin × Bool) :=
  match read_header_indices N d with
  | none => none
  | some (s, e) => some (replay_collect_loop N d ((e + N - s) % N) s)

/-- Verdict of the ordering block inside journal_replay_and_validate. -/
inductive OrderVerdict where
  | fatal
  | warn
  | ok
deriving DecidableEq

/-- Absolute value of a uint64 difference reinterpreted as int64, as in
`llabs((int64_t)(payload->timestamp_ms - last_timestamp))`. -/
def int64_abs (n : Nat) : Nat :=
  if n < 2 ^ 63 then n else 2 ^ 64 - n

/-- The ordering checks of journal_replay_and_validate (journal_writer.c),
in source order: a timestamp strictly below the previous one is immediately
fatal; otherwise, when the timestamp moved but the tx_id did not move the
same way, a skew above 10000 ms is fatal and a smaller one only warns;
anything else — including equal timestamps with any tx_id — passes. -/
def replay_order_check (last_ts last_tx ts tx : Nat) : OrderVerdict :=
  if ts < last_ts then .fatal
  else if (last_ts < ts ∧ tx ≤ last_tx) ∨ (ts < last_ts ∧ last_tx ≤ tx) then
    if 10000 < int64_abs ((ts + 2 ^ 64 - last_ts) % 2 ^ 64) then .fatal
    else .warn
  else .ok

/-- The entry walk of journal_replay_and_validate (journal_writer.c): same
format checks as the replayer's walk (without the payload sanity checks,
which only journal_replay_from_file performs), plus the ordering checks,
threading the previous entry's timestamp and tx_id (both start at 0). -/
def replay_validate_loop (N : Nat) (d : Disk) :
    Nat → Nat → Nat → Nat → Bool
  | 0, _, _, _ => true
  | steps + 1, index, last_tx, last_ts =>
    match d.slots (index_to_offset N index) with
    | none => true
    | some entry =>
      if entry.magic ≠ JOURNAL_MAGIC then false
      else if entry.version ≠ JOURNAL_VERSION then false
      else if crc32 (payloadBytes entry.payload) ≠ entry.crc32 then false
      else
        match replay_order_check last_ts last_tx entry.payload.timestamp_ms
            entry.payload.tx_id with
        | .fatal => false
        | _ =>
          replay_validate_loop N d steps ((index + 1) % N)
            entry.payload.tx_id entry.payload.timestamp_ms

/-- journal_replay_and_validate of journal_writer.c (the writer's one-shot
validation): `none` when the header is unreadable or invalid, otherwise the
final `all_good` flag of the walk. -/
def journal_replay_and_validate (N : Nat) (d : Disk) : Option Bool :=
  match read_header_indices N d with
  | none => none
  | some (s, e) =>
    some (replay_validate_loop N d ((e + N - s) % N) s 0 0)

/-- JOURNAL_QUEUE_MAX from journal_queue.c. -/
def JOURNAL_QUEUE_MAX : Nat := 4096

/-- One queue slot (`struct journal_queue_entry`): payload bytes (present
once written), length, used flag. -/
structure QueueSlot where
  data : Option PayloadBin
  len : Nat
  used : Bool
deriving DecidableEq

/-- Queue-module state (journal_queue.c), together with the process-wide
`dropped_events` counter declared in journal_globals.h — threaded here so
its (non-)updates are observable; no queue operation ever touches it. -/
structure QueueState where
  slots : Nat → QueueSlot
  head : Nat
  tail : Nat
  count : Nat
  dropped_events : Nat

/-- journal_queue_init of journal_queue.c: resets head/tail/count and marks
every slot unused (the global `dropped_events` is not part of the queue's
init). -/
def journal_queue_init (q : QueueState) : QueueState :=
  { q with
    slots := (fun _ => { data := none, len := 0, used := false }),
    head := 0, tail := 0, count := 0 }

/-- journal_enqueue of journal_queue.c: rejects a wrong payload length;
rejects (returning false, changing nothing — in particular not
`dropped_events`) when the queue is full; otherwise copies into the tail
slot, advances the tail, bumps the count. -/
def journal_enqueue (q : QueueState) (data : PayloadBin) (len : Nat) :
    Bool × QueueState :=
  if len ≠ payloadBinSize then (false, q)
  else if JOURNAL_QUEUE_MAX ≤ q.count then (false, q)
  else
    (true,
      { q with
        slots := (fun i =>
          if i = q.tail then { data := some data, len := len, used := true }
          else q.slots i),
        tail := (q.tail + 1) % JOURNAL_QUEUE_MAX,
        count := q.count + 1 })

/-- MAX_REASONABLE_TIME from journal.c (Jan 1, 2500). -/
def MAX_REASONABLE_TIME : Int := 16725229200

/-- MIN_REASONABLE_TIME from journal.c (Jan 1, 1980). -/
def MIN_REASONABLE_TIME : Int := 315536400

/-- IGNORE_INODE from journal.c: the fixed ignore-list of inode numbers. -/
def IGNORE_INODE (inode : Nat) : Bool :=
  inode == 82814 || inode == 48803 || inode == 49144 ||
  inode == 49142 || inode == 48795 || inode == 48794

/-- The inode snapshot journal_log_metadata reads from the node
(`struct stat`): `st_mtime` / `st_ctime` are signed `time_t`. -/
structure StatRec where
  st_ino : Nat
  st_mode : Nat
  st_size : Nat
  st_nlink : Nat
  st_blocks : Nat
  st_mtime : Int
  st_ctime : Int
deriving DecidableEq

/-- The caller-supplied `struct journal_entry_info`, with the fields
journal.c reads; NULL-able C strings are `Option` byte lists. -/
structure EntryInfo where
  action : Option (List Nat)
  name : Option (List Nat)
  old_name : Option (List Nat)
  new_name : Option (List Nat)
  target : Option (List Nat)
  extra : Option (List Nat)
  parent_ino : Nat
  src_parent_ino : Nat
  dst_parent_ino : Nat
  uid : Nat
  gid : Nat
  size : Nat
  mode : Nat
  has_mode : Bool
  has_size : Bool
  has_uid : Bool
  has_gid : Bool
deriving DecidableEq

/-- journal_durability_t from journal.h. -/
inductive Durability where
  | async
  | sync
deriving DecidableEq

/-- The payload construction of journal_log_metadata (journal.c lines
168-239): a calloc-zeroed payload filled with the freshly incremented
tx_id, the wall-clock milliseconds, inode fields narrowed to their binary
widths, `mtime`/`ctime` gated by the strict plausibility comparisons
`t > MIN_REASONABLE_TIME && t < MAX_REASONABLE_TIME`, the optional fields
only when their presence flag is set, and the six strings truncated to
`MAX_FIELD_LEN - 1` bytes. -/
def journal_build_payload (st : StatRec) (info : EntryInfo) (now_ms tx : Nat) :
    PayloadBin :=
  { tx_id := tx
    timestamp_ms := now_ms
    parent_ino := info.parent_ino % 2 ^ 32
    src_parent_ino := info.src_parent_ino % 2 ^ 32
    dst_parent_ino := info.dst_parent_ino % 2 ^ 32
    ino := st.st_ino % 2 ^ 32
    st_mode := if info.has_mode then info.mode % 2 ^ 32 else st.st_mode % 2 ^ 32
    st_size := if info.has_size then info.size % 2 ^ 64 else st.st_size % 2 ^ 64
    st_nlink := st.st_nlink % 2 ^ 64
    st_blocks := st.st_blocks % 2 ^ 64
    mtime := if MIN_REASONABLE_TIME < st.st_mtime ∧
        st.st_mtime < MAX_REASONABLE_TIME then st.st_mtime else -1
    ctime := if MIN_REASONABLE_TIME < st.st_ctime ∧
        st.st_ctime < MAX_REASONABLE_TIME then st.st_ctime else -1
    uid := if info.has_uid then info.uid % 2 ^ 32 else 0
    gid := if info.has_gid then info.gid % 2 ^ 32 else 0
    has_mode := info.has_mode
    has_size := info.has_size
    has_uid := info.has_uid
    has_gid := info.has_gid
    action := (info.action.getD []).take 255
    name := (info.name.getD []).take 255
    old_name := (info.old_name.getD []).take 255
    new_name := (info.new_name.getD []).take 255
    target := (info.target.getD []).take 255
    extra := (info.extra.getD []).take 255 }

/-- Observable result of one journal_log_metadata call: skipped without
effect, payload handed to journal_enqueue (with its result), or payload
handed to journal_write_raw_sync (with its result). -/
inductive LogOutcome where
  | skipped
  | enqueued (ok : Bool) (p : PayloadBin)
  | syncWritten (ok : Bool) (p : PayloadBin)
deriving DecidableEq

/-- The payload a LogOutcome carries, when one was built. -/
def LogOutcome.getPayload : LogOutcome → Option PayloadBin
  | .skipped => none
  | .enqueued _ p => some p
  | .syncWritten _ p => some p

/-- Process state seen by journal_log_metadata: the `journal_tx_id` counter
(initialized to 1 in journal.c), the `journal_device_ready` flag, the
writer state, the queue, and the raw device. -/
structure JState where
  tx_id : Nat
  device_ready : Bool
  writer : WriterSt
  queue : QueueState
  disk : Disk

/-- journal_log_metadata of journal.c: NULL node or info skips; an inode on
the ignore-list skips before the tx counter moves; otherwise the payload is
built with `tx_id = ++journal_tx_id` (uint64 pre-increment) and dispatched —
to journal_write_raw_sync when `journal_device_ready` holds and SYNC
durability was requested, else to journal_enqueue. -/
def journal_log_metadata (io : IOEnv) (N : Nat) (s : JState)
    (node : Option StatRec) (info : Option EntryInfo) (now_ms : Nat)
    (dur : Durability) : JState × LogOutcome :=
  match node with
  | none => (s, .skipped)
  | some st =>
    match info with
    | none => (s, .skipped)
    | some inf =>
      if IGNORE_INODE st.st_ino then (s, .skipped)
      else if JOURNAL_ENTRY_SIZE < payloadBinSize then (s, .skipped)
      else
        let tx' := (s.tx_id + 1) % 2 ^ 64
        let p := journal_build_payload st inf now_ms tx'
        let s1 := { s with tx_id := tx' }
        if s1.device_ready = true ∧ dur = Durability.sync then
          let r := journal_write_raw_sync io N s1.device_ready s1.writer s1.disk p
          ({ s1 with disk := r.2 }, .syncWritten r.1 p)
        else
          let r := journal_enqueue s1.queue p payloadBinSize
          ({ s1 with queue := r.2 }, .enqueued r.1 p)

/-- Sequential journal_log_metadata calls (one caller thread), collecting
the payloads that were built. -/
def log_metadata_seq (io : IOEnv) (N : Nat) :
    JState → List (StatRec × EntryInfo × Nat × Durability) →
    JState × List PayloadBin
  | s, [] => (s, [])
  | s, (st, inf, now, dur) :: rest =>
    let r := journal_log_metadata io N s (some st) (some inf) now dur
    let r2 := log_metadata_seq io N r.1 rest
    (r2.1,
      match r.2.getPayload with
      | some p => p :: r2.2
      | none => r2.2)

/-- A zero payload, as calloc produces before the logger fills fields in. -/
def basePayload : PayloadBin :=
  { tx_id := 0, timestamp_ms := 0, parent_ino := 0, src_parent_ino := 0,
    dst_parent_ino := 0, ino := 0, st_mode := 0, st_size := 0, st_nlink := 0,
    st_blocks := 0, mtime := 0, ctime := 0, uid := 0, gid := 0,
    has_mode := false, has_size := false, has_uid := false, has_gid := false,
    action := [], name := [], old_name := [], new_name := [], target := [],
    extra := [] }

/-- The bytes of the action string "create". -/
def actCreate : List Nat := [99, 114, 101, 97, 116, 101]

/-- A small valid payload (non-empty action, nonzero ino) for concrete runs. -/
def samplePayload (tx ts ino : Nat) : PayloadBin :=
  { basePayload with
    tx_id := tx
    timestamp_ms := ts
    ino := ino
    action := actCreate }

/-- One `journal_write_indexed` step in the all-success environment, acting
on (device, end_index, start_index). -/
def write_step (N : Nat) (st : Disk × Nat × Nat) (p : PayloadBin) :
    Disk × Nat × Nat :=
  let next := (st.2.1 + 1) % N
  let s' := if next = st.2.2 then (st.2.2 + 1) % N else st.2.2
  (diskWriteSlot st.1 (index_to_offset N st.2.1) (mkEntryBin p), next, s')

/-- Folding a payload list through `journal_write_indexed`. -/
def write_fold (N : Nat) (S : List PayloadBin) (st : Disk × Nat × Nat) :
    Disk × Nat × Nat :=
  S.foldl (write_step N) st

/-- The payload a slot holds after a run: the last element of `S` whose
write index is congruent to `j` modulo `N`, if any was written there. -/
def pickLast (N : Nat) (S : List PayloadBin) (j : Nat) : Option PayloadBin :=
  if j < S.length then S.get? (S.length - 1 - ((S.length - 1 - j) % N))
  else none

/-- The start index after writing `m` payloads into an initially empty ring
of size `N`: 0 until the ring is about to close, then one past the evicted
region. -/
def startAfter (N m : Nat) : Nat :=
  if m < N then 0 else (m - N + 1) % N

/-- Initial writer state: `dropped_txs = 0`, not yet replayed. -/
def writerInit : WriterSt := { dropped_txs := 0, replayed_once := false }

/-- Initial queue state (after journal_queue_init on a zeroed module). -/
def queueInit : QueueState :=
  { slots := (fun _ => { data := none, len := 0, used := false }),
    head := 0, tail := 0, count := 0, dropped_events := 0 }

/-- Initial process state: `journal_tx_id = 1`, device not ready, fresh
writer, fresh queue, empty device. -/
def jstateInit : JState :=
  { tx_id := 1, device_ready := false, writer := writerInit,
    queue := queueInit, disk := emptyDisk }

/-- Concrete scenario for the overflow claim: six payloads with tx_ids 1..6
as `journal_write_raw` batch elements. -/
def overflowBatch : List (PayloadBin × Nat) :=
  [ (samplePayload 1 100 10, payloadBinSize),
    (samplePayload 2 200 11, payloadBinSize),
    (samplePayload 3 300 12, payloadBinSize),
    (samplePayload 4 400 13, payloadBinSize),
    (samplePayload 5 500 14, payloadBinSize),
    (samplePayload 6 600 15, payloadBinSize) ]

/-- The result of writing the six payloads into an empty ring of size 4. -/
def overflowRun : Bool × WriterSt × Disk :=
  journal_write_raw IOEnv.allOk 4 writerInit emptyDisk overflowBatch

/-- First entry of the decreasing-timestamp replay scenario: tx 2 at
timestamp 20000 ms. -/
def skewPayloadA : PayloadBin := samplePayload 2 20000 100

/-- Second entry of the decreasing-timestamp replay scenario: tx 3 at
timestamp 0 ms — a 20000 ms decrease, beyond the 10-second tolerance. -/
def skewPayloadB : PayloadBin := samplePayload 3 0 101

/-- A device (reference ring size 2047) holding the two skew entries at
slots 0 and 1 under a valid header `[0, 2)`. -/
def skewDisk : Disk :=
  { header := some (journal_mk_header 0 2),
    slots := (fun o =>
      if o = index_to_offset JOURNAL_NUM_ENTRIES 0 then
        some (mkEntryBin skewPayloadA)
      else if o = index_to_offset JOURNAL_NUM_ENTRIES 1 then
        some (mkEntryBin skewPayloadB)
      else none) }

/-- Fault environment in which only the first entry write succeeds. -/
def secondWriteFails : IOEnv :=
  { fd_ok := true, header_read_eio := false,
    write_ok := (fun k => k == 0), header_write_ok := (fun _ => true) }

/-- A two-payload batch whose second write hits the injected I/O error. -/
def abortedBatch : List (PayloadBin × Nat) :=
  [ (samplePayload 1 100 10, payloadBinSize),
    (samplePayload 2 200 11, payloadBinSize) ]

/-- The run of the aborted batch (ring size 4, fresh writer, empty device). -/
def abortedRun : Bool × WriterSt × Disk :=
  journal_write_raw secondWriteFails 4 writerInit emptyDisk abortedBatch

/-- A queue at full capacity (`count = JOURNAL_QUEUE_MAX`) with
`dropped_events = 0`. -/
def fullQueue : QueueState :=
  { slots := (fun _ => { data := none, len := 0, used := false }),
    head := 0, tail := 0, count := JOURNAL_QUEUE_MAX, dropped_events := 0 }

/-- A payload whose `action` is the empty string: journal_write_raw accepts
it, but journal_replay_from_file rejects it at validation. -/
def emptyActionPayload : PayloadBin :=
  { basePayload with tx_id := 1, timestamp_ms := 100, ino := 10 }

/-- Writing the single empty-action payload into an empty ring of size 4. -/
def emptyActionRun : Bool × WriterSt × Disk :=
  journal_write_raw IOEnv.allOk 4 writerInit emptyDisk
    [(emptyActionPayload, payloadBinSize)]

/-- Inode snapshot whose `st_mtime` sits exactly on MIN_REASONABLE_TIME
(the code's Jan 1, 1980 constant) and whose `st_ctime` is comfortably
inside the plausible range. -/
def boundaryStat : StatRec :=
  { st_ino := 10, st_mode := 0, st_size := 0, st_nlink := 1, st_blocks := 0,
    st_mtime := MIN_REASONABLE_TIME, st_ctime := 1000000000 }

/-- An info record with only an action string set. -/
def plainInfo : EntryInfo :=
  { action := some actCreate, name := none, old_name := none,
    new_name := none, target := none, extra := none, parent_ino := 0,
    src_parent_ino := 0, dst_parent_ino := 0, uid := 0, gid := 0, size := 0,
    mode := 0, has_mode := false, has_size := false, has_uid := false,
    has_gid := false }

/-- The boundary-timestamp logging call (async, fresh state). -/
def boundaryRun : JState × LogOutcome :=
  journal_log_metadata IOEnv.allOk JOURNAL_NUM_ENTRIES jstateInit
    (some boundaryStat) (some plainInfo) 5 Durability.async

/-- A non-ignored inode snapshot for sequential-logging runs. -/
def plainStat : StatRec :=
  { st_ino := 10, st_mode := 0, st_size := 0, st_nlink := 1, st_blocks := 0,
    st_mtime := 1000000000, st_ctime := 1000000000 }

/-- Two sequential logging calls on non-ignored inodes. -/
def seqInputs : List (StatRec × EntryInfo × Nat × Durability) :=
  [ (plainStat, plainInfo, 5, Durability.async),
    (plainStat, plainInfo, 6, Durability.async) ]

/-- The six payloads (tx_ids 1..6) of the overflow scenario, as a payload
list. -/
def overflowPayloads : List PayloadBin :=
  [ samplePayload 1 100 10, samplePayload 2 200 11, samplePayload 3 300 12,
    samplePayload 4 400 13, samplePayload 5 500 14, samplePayload 6 600 15 ]

theorem mod_succ_eq (a N : Nat) : (a % N + 1) % N = (a + 1) % N :=
  Nat.ModEq.add_right 1 (Nat.mod_modEq a N)

theorem mod_eq_of_modeq_lt {a b N : Nat} (h : a ≡ b [MOD N]) (hb : b < N) :
    a % N = b := by
  have h' : a % N = b % N := h
  rw [Nat.mod_eq_of_lt hb] at h'
  exact h'

theorem index_to_offset_mod (N i : Nat) :
    index_to_offset N (i % N) = index_to_offset N i := by
  unfold index_to_offset
  rw [Nat.mod_mod_of_dvd i (dvd_refl N)]

theorem index_to_offset_inj {N i j : Nat} (hi : i < N) (hj : j < N)
    (h : index_to_offset N i = index_to_offset N j) : i = j := by
  unfold index_to_offset at h
  rw [Nat.mod_eq_of_lt hi, Nat.mod_eq_of_lt hj] at h
  have h2 : i * JOURNAL_ENTRY_SIZE = j * JOURNAL_ENTRY_SIZE := by omega
  have h3 : (0:Nat) < JOURNAL_ENTRY_SIZE := by decide
  exact Nat.eq_of_mul_eq_mul_right h3 h2

theorem diskWriteSlot_header (d : Disk) (o : Nat) (e : EntryBin) :
    (diskWriteSlot d o e).header = d.header := rfl

theorem diskWriteSlot_same (d : Disk) (o : Nat) (e : EntryBin) :
    (diskWriteSlot d o e).slots o = some e := by
  unfold diskWriteSlot
  simp

theorem diskWriteSlot_other (d : Disk) (o o' : Nat) (e : EntryBin)
    (h : o' ≠ o) : (diskWriteSlot d o e).slots o' = d.slots o' := by
  unfold diskWriteSlot
  simp [h]

/-- Claim C4, amended: `journal_enqueue` on a full queue (count at capacity
`Q = 4096`) with a correct-length payload returns failure and leaves the
queue state — including the `dropped_events` counter, which the queue code
never touches — completely unchanged. -/
theorem journal_enqueue_full_drops (q : QueueState) (p : PayloadBin)
    (hfull : JOURNAL_QUEUE_MAX ≤ q.count) :
    journal_enqueue q p payloadBinSize = (false, q) := by
  unfold journal_enqueue
  simp [hfull]

/-- Witness for C4's amended theorem at the concrete full queue. -/
theorem journal_enqueue_full_drops_witness :
    journal_enqueue fullQueue (samplePayload 1 100 10) payloadBinSize =
      (false, fullQueue) :=
  journal_enqueue_full_drops fullQueue (samplePayload 1 100 10) (by decide)

/-- Counterexample to claim C4 as stated: on a full queue the call fails but
`dropped_events` stays 0 — it is not incremented. -/
theorem journal_enqueue_full_no_counter :
    (journal_enqueue fullQueue (samplePayload 1 100 10)
        payloadBinSize).1 = false ∧
    (journal_enqueue fullQueue (samplePayload 1 100 10)
        payloadBinSize).2.dropped_events = 0 ∧ (0 : Nat) ≠ 0 + 1 := by
  refine ⟨rfl, rfl, by decide⟩

/-- Claim C5, amended: the precondition the sync path itself requires is the
writer's `replayed_once` flag (set by the first successful batch write), not
`journal_device_ready`: when `replayed_once` is false the call fails and
writes nothing, whatever the device-ready flag says; `journal_device_ready`
is only consulted by the caller `journal_log_metadata`, which routes to the
sync path exclusively when it is true. -/
theorem journal_write_raw_sync_needs_replayed_once (io : IOEnv) (N : Nat)
    (device_ready : Bool) (w : WriterSt) (d : Disk) (p : PayloadBin)
    (h : w.replayed_once = false) :
    journal_write_raw_sync io N device_ready w d p = (false, d) := by
  unfold journal_write_raw_sync
  simp [h]

/-- Witness for C5's amended theorem. -/
theorem journal_write_raw_sync_needs_replayed_once_witness :
    journal_write_raw_sync IOEnv.allOk 4 true writerInit emptyDisk
      (samplePayload 5 100 42) = (false, emptyDisk) :=
  journal_write_raw_sync_needs_replayed_once IOEnv.allOk 4 true writerInit
    emptyDisk (samplePayload 5 100 42) rfl

/-- Counterexample to claim C5 as stated: with `replayed_once` already set,
the sync path succeeds and writes an entry even though `device_ready` is
false — the sync path itself never reads the readiness flag. -/
theorem journal_write_raw_sync_ignores_device_ready :
    (journal_write_raw_sync IOEnv.allOk 4 false
        { dropped_txs := 0, replayed_once := true } emptyDisk
        (samplePayload 5 100 42)).1 = true ∧
    (journal_write_raw_sync IOEnv.allOk 4 false
        { dropped_txs := 0, replayed_once := true } emptyDisk
        (samplePayload 5 100 42)).2.slots (index_to_offset 4 0) ≠ none := by
  constructor
  · decide
  · decide

/-- Claim C7: whenever `journal_write_indexed` succeeds in persisting a
payload at slot index `e`, re-reading the device at byte offset
`R + (e mod N) * E` yields an entry whose magic is JOURNAL_MAGIC, whose
version is JOURNAL_VERSION, and whose trailing CRC field equals the CRC-32
computed over the entry's payload region (the CRC field, which lies outside
that region, having been zeroed before computation). -/
theorem journal_write_indexed_slot_invariant (N : Nat) (ok : Bool) (d : Disk)
    (p : PayloadBin) (len e s : Nat) (d' : Disk) (e' s' : Nat)
    (h : journal_write_indexed N ok d p len e s = some (d', e', s')) :
    ∃ entry : EntryBin,
      d'.slots (JOURNAL_RESERVED_SPACE + (e % N) * JOURNAL_ENTRY_SIZE) =
        some entry ∧
      entry.magic = JOURNAL_MAGIC ∧ entry.version = JOURNAL_VERSION ∧
      entry.crc32 = crc32 (payloadBytes entry.payload) := by
  unfold journal_write_indexed at h
  by_cases hlen : payloadBinSize < len
  · simp [hlen] at h
  · simp only [hlen, if_false] at h
    by_cases hok : ok = true
    · rw [hok, if_pos rfl] at h
      have hd : d' = diskWriteSlot d (index_to_offset N e) (mkEntryBin p) := by
        have := congrArg (fun x : Option (Disk × Nat × Nat) =>
          (x.getD (d, e, s)).1) h
        simpa using this.symm
      refine ⟨mkEntryBin p, ?_, rfl, rfl, rfl⟩
      rw [hd]
      exact diskWriteSlot_same d (index_to_offset N e) (mkEntryBin p)
    · rw [Bool.not_eq_true] at hok
      rw [hok] at h
      simp at h

/-- Witness for C7 at a concrete successful write. -/
theorem journal_write_indexed_slot_invariant_witness :
    ∃ entry : EntryBin,
      (diskWriteSlot emptyDisk (index_to_offset 4 0)
          (mkEntryBin (samplePayload 1 100 10))).slots
        (JOURNAL_RESERVED_SPACE + (0 % 4) * JOURNAL_ENTRY_SIZE) = some entry ∧
      entry.magic = JOURNAL_MAGIC ∧ entry.version = JOURNAL_VERSION ∧
      entry.crc32 = crc32 (payloadBytes entry.payload) :=
  journal_write_indexed_slot_invariant 4 true emptyDisk
    (samplePayload 1 100 10) payloadBinSize 0 0
    (diskWriteSlot emptyDisk (index_to_offset 4 0)
      (mkEntryBin (samplePayload 1 100 10))) (1 % 4) 0 rfl

/-- Claim C8: a `journal_log_metadata` call whose node's inode number is on
the fixed ignore-list (e.g. 48803) returns silently with no observable
effect: the state — tx counter, queue, writer, device — is returned
untouched and the outcome is `skipped`. -/
theorem journal_log_metadata_ignored_inode (io : IOEnv) (N : Nat)
    (s : JState) (st : StatRec) (info : EntryInfo) (now_ms : Nat)
    (dur : Durability) (h : IGNORE_INODE st.st_ino = true) :
    journal_log_metadata io N s (some st) (some info) now_ms dur =
      (s, LogOutcome.skipped) := by
  unfold journal_log_metadata
  simp [h]

/-- Witness for C8 at inode 48803. -/
theorem journal_log_metadata_ignored_inode_witness :
    journal_log_metadata IOEnv.allOk JOURNAL_NUM_ENTRIES jstateInit
      (some { plainStat with st_ino := 48803 }) (some plainInfo) 5
      Durability.async = (jstateInit, LogOutcome.skipped) :=
  journal_log_metadata_ignored_inode IOEnv.allOk JOURNAL_NUM_ENTRIES
    jstateInit { plainStat with st_ino := 48803 } plainInfo 5
    Durability.async (by decide)

/-- Claim C9, amended: the payload built by `journal_log_metadata` records
`mtime` (resp. `ctime`) as the node's value exactly when that value lies
strictly inside the plausible range — `MIN_REASONABLE_TIME < t <
MAX_REASONABLE_TIME`, both strict — and as -1 otherwise; in particular the
range endpoints themselves are recorded as -1. -/
theorem journal_log_metadata_reasonable_times (io : IOEnv) (N : Nat)
    (s : JState) (st : StatRec) (info : EntryInfo) (now_ms : Nat)
    (dur : Durability) (p : PayloadBin)
    (h : (journal_log_metadata io N s (some st) (some info) now_ms
        dur).2.getPayload = some p) :
    p.mtime = (if MIN_REASONABLE_TIME < st.st_mtime ∧
        st.st_mtime < MAX_REASONABLE_TIME then st.st_mtime else -1) ∧
    p.ctime = (if MIN_REASONABLE_TIME < st.st_ctime ∧
        st.st_ctime < MAX_REASONABLE_TIME then st.st_ctime else -1) := by
  unfold journal_log_metadata at h
  by_cases hig : IGNORE_INODE st.st_ino
  · simp [hig, LogOutcome.getPayload] at h
  · simp only [hig, if_false, Bool.false_eq_true] at h
    by_cases hbig : JOURNAL_ENTRY_SIZE < payloadBinSize
    · exact absurd hbig (by decide)
    · simp only [hbig, if_false] at h
      by_cases hsync : s.device_ready = true ∧ dur = Durability.sync
      · simp only [hsync, if_true, LogOutcome.getPayload] at h
        cases h
        exact ⟨rfl, rfl⟩
      · simp only [hsync, if_false, LogOutcome.getPayload] at h
        cases h
        exact ⟨rfl, rfl⟩

/-- Witness for C9's amended theorem on the boundary-timestamp run. -/
theorem journal_log_metadata_reasonable_times_witness :
    (journal_build_payload boundaryStat plainInfo 5 2).mtime =
      (if MIN_REASONABLE_TIME < boundaryStat.st_mtime ∧
          boundaryStat.st_mtime < MAX_REASONABLE_TIME then
        boundaryStat.st_mtime else -1) ∧
    (journal_build_payload boundaryStat plainInfo 5 2).ctime =
      (if MIN_REASONABLE_TIME < boundaryStat.st_ctime ∧
          boundaryStat.st_ctime < MAX_REASONABLE_TIME then
        boundaryStat.st_ctime else -1) :=
  journal_log_metadata_reasonable_times IOEnv.allOk JOURNAL_NUM_ENTRIES
    jstateInit boundaryStat plainInfo 5 Durability.async
    (journal_build_payload boundaryStat plainInfo 5 2) rfl

/-- Counterexample to claim C9 as stated: a node whose `st_mtime` equals
MIN_REASONABLE_TIME — inside the closed range `[1980-01-01, 2500-01-01]`
the claim asserts — is recorded as -1, not as `st_mtime`. -/
theorem journal_log_metadata_boundary_time_counterexample :
    boundaryRun.2.getPayload.map PayloadBin.mtime = some (-1) ∧
    (-1 : Int) ≠ MIN_REASONABLE_TIME := by
  constructor
  · rfl
  · decide

/-- Claim C2, amended: `journal_replay_from_file` enforces no ordering at
all (see the counterexample); the ordering rule lives in the writer's
one-shot `journal_replay_and_validate`, whose per-entry check — modelled by
`replay_order_check` — is: any timestamp decrease is immediately fatal
(regardless of the 10-second tolerance); when the timestamp strictly
increases while the tx_id fails to increase, the check is fatal if the
int64-interpreted skew exceeds 10000 ms and only warns otherwise; and equal
timestamps pass unconditionally — the strict tx_id increase the claim
demands for equal timestamps is never checked. -/
theorem replay_order_check_characterization (last_ts last_tx ts tx : Nat) :
    (replay_order_check last_ts last_tx ts tx = OrderVerdict.fatal ↔
      ts < last_ts ∨ (last_ts < ts ∧ tx ≤ last_tx ∧
        10000 < int64_abs ((ts + 2 ^ 64 - last_ts) % 2 ^ 64))) ∧
    (replay_order_check last_ts last_tx ts tx = OrderVerdict.warn ↔
      (last_ts < ts ∧ tx ≤ last_tx ∧
        int64_abs ((ts + 2 ^ 64 - last_ts) % 2 ^ 64) ≤ 10000)) ∧
    (ts = last_ts → replay_order_check last_ts last_tx ts tx =
      OrderVerdict.ok) := by
  unfold replay_order_check
  by_cases h1 : ts < last_ts
  · rw [if_pos h1]
    refine ⟨iff_of_true rfl (Or.inl h1), iff_of_false (by decide) ?_, ?_⟩
    · intro hc
      exact absurd hc.1 (by omega)
    · intro he
      exact absurd h1 (by omega)
  · rw [if_neg h1]
    by_cases h2 : (last_ts < ts ∧ tx ≤ last_tx) ∨ (ts < last_ts ∧ last_tx ≤ tx)
    · have h2' : last_ts < ts ∧ tx ≤ last_tx := by
        rcases h2 with h | h
        · exact h
        · exact absurd h.1 h1
      rw [if_pos h2]
      by_cases h3 : 10000 < int64_abs ((ts + 2 ^ 64 - last_ts) % 2 ^ 64)
      · rw [if_pos h3]
        refine ⟨iff_of_true rfl (Or.inr ⟨h2'.1, h2'.2, h3⟩),
          iff_of_false (by decide) ?_, ?_⟩
        · intro hc
          exact absurd hc.2.2 (by omega)
        · intro he
          exact absurd h2'.1 (by omega)
      · rw [if_neg h3]
        refine ⟨iff_of_false (by decide) ?_, iff_of_true rfl ⟨h2'.1, h2'.2, ?_⟩, ?_⟩
        · intro hc
          rcases hc with hlt | ⟨_, _, habs⟩
          · exact absurd hlt h1
          · exact absurd habs h3
        · omega
        · intro he
          exact absurd h2'.1 (by omega)
    · rw [if_neg h2]
      refine ⟨iff_of_false (by decide) ?_, iff_of_false (by decide) ?_, fun _ => rfl⟩
      · intro hc
        rcases hc with hlt | ⟨ha, hb, _⟩
        · exact absurd hlt h1
        · exact h2 (Or.inl ⟨ha, hb⟩)
      · intro hc
        exact h2 (Or.inl ⟨hc.1, hc.2.1⟩)

/-- Witness for C2's amended theorem: equal timestamps with a decreasing
tx_id pass the ordering check. -/
theorem replay_order_check_characterization_witness :
    replay_order_check 5 7 5 0 = OrderVerdict.ok :=
  (replay_order_check_characterization 5 7 5 0).2.2 rfl

/-- Counterexample to claim C2 as stated: a log whose second entry's
timestamp decreases by 20000 ms (beyond the 10-second tolerance) replays
through `journal_replay_from_file` completely, yielding both payloads with
`all_good = true` — the replayer neither warns nor fails, because it
performs no ordering checks at all. -/
theorem journal_replay_from_file_no_ordering :
    skewPayloadB.timestamp_ms + 20000 = skewPayloadA.timestamp_ms ∧
    journal_replay_from_file JOURNAL_NUM_ENTRIES skewDisk =
      some ([skewPayloadA, skewPayloadB], true) := by
  constructor
  · decide
  · decide

theorem journal_log_metadata_builds (io : IOEnv) (N : Nat) (s : JState)
    (st : StatRec) (info : EntryInfo) (now_ms : Nat) (dur : Durability)
    (h : IGNORE_INODE st.st_ino = false) :
    (journal_log_metadata io N s (some st) (some info) now_ms dur).1.tx_id =
      (s.tx_id + 1) % 2 ^ 64 ∧
    (journal_log_metadata io N s (some st) (some info) now_ms
        dur).2.getPayload =
      some (journal_build_payload st info now_ms ((s.tx_id + 1) % 2 ^ 64)) := by
  unfold journal_log_metadata
  have hig' : ¬ (IGNORE_INODE st.st_ino = true) := by rw [h]; decide
  dsimp only
  rw [if_neg hig', if_neg (by decide : ¬ JOURNAL_ENTRY_SIZE < payloadBinSize)]
  by_cases hsync : s.device_ready = true ∧ dur = Durability.sync
  · rw [if_pos hsync]
    exact ⟨rfl, rfl⟩
  · rw [if_neg hsync]
    exact ⟨rfl, rfl⟩

theorem log_metadata_seq_tx_ids (io : IOEnv) (N : Nat) :
    ∀ (inputs : List (StatRec × EntryInfo × Nat × Durability)) (s : JState)
      (t : Nat), s.tx_id = t → t + inputs.length < 2 ^ 64 →
      (∀ x ∈ inputs, IGNORE_INODE x.1.st_ino = false) →
      (log_metadata_seq io N s inputs).2.map PayloadBin.tx_id =
        (List.range inputs.length).map (fun i => t + 1 + i)
  | [], s, t, _, _, _ => by
    simp [log_metadata_seq]
  | (st, inf, now, dur) :: rest, s, t, hs, hb, hig => by
    have hig0 : IGNORE_INODE st.st_ino = false :=
      hig (st, inf, now, dur) (List.mem_cons_self _ _)
    have hrest : ∀ x ∈ rest, IGNORE_INODE x.1.st_ino = false := by
      intro x hx
      exact hig x (by simp [hx])
    have hbuild := journal_log_metadata_builds io N s st inf now dur hig0
    have htx1 : (s.tx_id + 1) % 2 ^ 64 = t + 1 := by
      rw [hs]
      exact Nat.mod_eq_of_lt (by simp at hb; omega)
    have hIH := log_metadata_seq_tx_ids io N rest
      (journal_log_metadata io N s (some st) (some inf) now dur).1 (t + 1)
      (by rw [hbuild.1, htx1]) (by simp at hb ⊢; omega) hrest
    unfold log_metadata_seq
    dsimp only
    rw [hbuild.2, htx1]
    dsimp only
    simp only [List.map_cons, hIH]
    have hfield : (journal_build_payload st inf now (t + 1)).tx_id = t + 1 := rfl
    rw [hfield]
    rw [List.length_cons, List.range_succ_eq_map, List.map_cons,
      List.map_map]
    congr 1
    apply List.map_congr_left
    intro a _
    simp
    omega

/-- Claim C10: starting from the initial state (`journal_tx_id = 1`),
sequentially built payloads carry the pre-incremented counter: the i-th
payload of a run of `n` non-ignored `journal_log_metadata` calls carries
`tx_id = i + 2` — the first one carries 2, each subsequent one exactly one
more — and `tx_id = 1` never appears in any payload (bounded by the uint64
counter width). -/
theorem journal_tx_id_sequence (io : IOEnv) (N : Nat)
    (inputs : List (StatRec × EntryInfo × Nat × Durability))
    (hb : inputs.length + 1 < 2 ^ 64)
    (hig : ∀ x ∈ inputs, IGNORE_INODE x.1.st_ino = false) :
    (log_metadata_seq io N jstateInit inputs).2.map PayloadBin.tx_id =
      (List.range inputs.length).map (fun i => i + 2) ∧
    ∀ p ∈ (log_metadata_seq io N jstateInit inputs).2, p.tx_id ≠ 1 := by
  have hmain := log_metadata_seq_tx_ids io N inputs jstateInit 1 rfl
    (by omega) hig
  constructor
  · rw [hmain]
    apply List.map_congr_left
    intro a _
    omega
  · intro p hp
    have hmem : p.tx_id ∈ (log_metadata_seq io N jstateInit
        inputs).2.map PayloadBin.tx_id := List.mem_map_of_mem _ hp
    rw [hmain] at hmem
    rcases List.mem_map.mp hmem with ⟨i, _, hi⟩
    omega

/-- Witness for C10 on two concrete calls: the payloads carry tx_ids 2, 3. -/
theorem journal_tx_id_sequence_witness :
    (log_metadata_seq IOEnv.allOk JOURNAL_NUM_ENTRIES jstateInit
        seqInputs).2.map PayloadBin.tx_id =
      (List.range seqInputs.length).map (fun i => i + 2) ∧
    ∀ p ∈ (log_metadata_seq IOEnv.allOk JOURNAL_NUM_ENTRIES jstateInit
        seqInputs).2, p.tx_id ≠ 1 :=
  journal_tx_id_sequence IOEnv.allOk JOURNAL_NUM_ENTRIES seqInputs
    (by decide) (by decide)

theorem initialize_indices_some (io : IOEnv) (N : Nat) (d : Disk)
    (h : io.header_read_eio = false) :
    ∃ se : Nat × Nat, initialize_indices io N d = some se := by
  unfold initialize_indices
  rw [h]
  simp only [Bool.false_eq_true, if_false]
  cases d.header with
  | none => exact ⟨(0, 0), rfl⟩
  | some hh =>
    dsimp only
    split
    · exact ⟨(0, 0), rfl⟩
    · split
      · exact ⟨(0, 0), rfl⟩
      · exact ⟨(hh.start_index, hh.end_index), rfl⟩

theorem journal_write_indexed_fail (N : Nat) (d : Disk) (p : PayloadBin)
    (len e s : Nat) : journal_write_indexed N false d p len e s = none := by
  unfold journal_write_indexed
  split
  · rfl
  · rfl

theorem journal_write_indexed_succ (N : Nat) (d : Disk) (p : PayloadBin)
    (e s : Nat) :
    journal_write_indexed N true d p payloadBinSize e s =
      some (diskWriteSlot d (index_to_offset N e) (mkEntryBin p), (e + 1) % N,
        if (e + 1) % N = s then (s + 1) % N else s) := by
  unfold journal_write_indexed
  rw [if_neg (by decide : ¬ payloadBinSize < payloadBinSize)]
  rfl

theorem write_raw_loop_fail (io : IOEnv) (N : Nat) :
    ∀ (batch : List (PayloadBin × Nat)) (k : Nat) (d : Disk) (e s i : Nat),
      i < batch.length → (∀ x ∈ batch, x.2 = payloadBinSize) →
      (∀ j, j < i → io.write_ok (k + j) = true) →
      io.write_ok (k + i) = false →
      ∃ d1 e1 s1, write_raw_loop io N batch k d e s = (false, d1, e1, s1) ∧
        d1.header = d.header
  | [], _, _, _, _, i, hi, _, _, _ => absurd hi (by simp)
  | (p, len) :: rest, k, d, e, s, i, hi, hlen, hok, hfail => by
    have hlen0 : len = payloadBinSize := hlen (p, len) (List.mem_cons_self _ _)
    unfold write_raw_loop
    rw [if_neg (fun hc => hc hlen0)]
    cases i with
    | zero =>
      have hf : io.write_ok k = false := by
        have := hfail
        rwa [Nat.add_zero] at this
      rw [hlen0, hf, journal_write_indexed_fail]
      exact ⟨d, e, s, rfl, rfl⟩
    | succ i' =>
      have hk : io.write_ok k = true := by
        have := hok 0 (Nat.succ_pos i')
        rwa [Nat.add_zero] at this
      rw [hlen0, hk, journal_write_indexed_succ]
      have hrest : i' < rest.length := by
        simpa using hi
      have hok' : ∀ j, j < i' → io.write_ok (k + 1 + j) = true := by
        intro j hj
        have := hok (j + 1) (by omega)
        rwa [show k + (j + 1) = k + 1 + j by omega] at this
      have hfail' : io.write_ok (k + 1 + i') = false := by
        have := hfail
        rwa [show k + (i' + 1) = k + 1 + i' by omega] at this
      obtain ⟨d1, e1, s1, hl, hh⟩ := write_raw_loop_fail io N rest (k + 1)
        (diskWriteSlot d (index_to_offset N e) (mkEntryBin p)) ((e + 1) % N)
        (if (e + 1) % N = s then (s + 1) % N else s) i' hrest
        (fun x hx => hlen x (List.mem_cons_of_mem _ hx)) hok' hfail'
      refine ⟨d1, e1, s1, hl, ?_⟩
      rw [hh]
      rfl

/-- Claim C3, amended: when the i-th write of a batch fails with an I/O
error, `journal_write_raw` aborts the batch with the header not advanced
(the device keeps the header it had, so the log stays consistent with the
last persisted header), but `dropped_txs` is incremented by the FULL batch
size `count` — not by the unwritten remainder `count - i`. -/
theorem journal_write_raw_io_error_drops_batch (io : IOEnv) (N : Nat)
    (w : WriterSt) (d : Disk) (batch : List (PayloadBin × Nat)) (i : Nat)
    (hfd : io.fd_ok = true) (heio : io.header_read_eio = false)
    (hlen : ∀ x ∈ batch, x.2 = payloadBinSize) (hi : i < batch.length)
    (hok : ∀ j, j < i → io.write_ok j = true)
    (hfail : io.write_ok i = false) :
    ∃ d1, journal_write_raw io N w d batch =
      (false, { dropped_txs := w.dropped_txs + batch.length,
                replayed_once := true }, d1) ∧ d1.header = d.header := by
  unfold journal_write_raw
  rw [if_neg (by simp [hfd])]
  obtain ⟨⟨s0, e0⟩, hinit⟩ := initialize_indices_some io N d heio
  rw [hinit]
  dsimp only
  obtain ⟨d1, e1, s1, hl, hh⟩ := write_raw_loop_fail io N batch 0 d e0 s0 i hi
    hlen (by intro j hj; rw [Nat.zero_add]; exact hok j hj)
    (by rw [Nat.zero_add]; exact hfail)
  rw [hl]
  exact ⟨d1, rfl, hh⟩

/-- Witness for C3's amended theorem on the concrete aborted two-entry
batch (first write succeeds, second fails). -/
theorem journal_write_raw_io_error_drops_batch_witness :
    ∃ d1, journal_write_raw secondWriteFails 4 writerInit emptyDisk
        abortedBatch =
      (false, { dropped_txs := writerInit.dropped_txs + abortedBatch.length,
                replayed_once := true }, d1) ∧ d1.header = emptyDisk.header :=
  journal_write_raw_io_error_drops_batch secondWriteFails 4 writerInit
    emptyDisk abortedBatch 1 rfl rfl (by decide) (by decide) (by decide)
    (by decide)

/-- Counterexample to claim C3 as stated: after the second of two writes
fails, one entry was already written, so the unwritten remainder is 1, yet
`dropped_txs` grows by the full batch size 2. -/
theorem journal_write_raw_drops_full_count :
    abortedRun.2.1.dropped_txs = 2 ∧ (2 : Nat) ≠ 1 := by
  constructor
  · decide
  · decide

theorem sub_mod_self_zero (m N : Nat) : (m - m % N) % N = 0 := by
  have h := Nat.div_add_mod m N
  have h2 : m - m % N = N * (m / N) := by omega
  rw [h2]
  exact Nat.mul_mod_right N _

theorem mod_add_left_mod (a t N : Nat) : (a % N + t) % N = (a + t) % N :=
  Nat.ModEq.add_right t (Nat.mod_modEq a N)

theorem write_raw_loop_allOk (N : Nat) :
    ∀ (S : List PayloadBin) (k : Nat) (d : Disk) (e s : Nat),
      write_raw_loop IOEnv.allOk N (S.map fun p => (p, payloadBinSize)) k d
        e s = (true, write_fold N S (d, e, s))
  | [], _, _, _, _ => rfl
  | p :: rest, k, d, e, s => by
    rw [List.map_cons]
    unfold write_raw_loop
    rw [if_neg (fun hc => hc rfl)]
    rw [show IOEnv.allOk.write_ok k = true from rfl,
      journal_write_indexed_succ]
    dsimp only
    rw [write_raw_loop_allOk N rest (k + 1)
      (diskWriteSlot d (index_to_offset N e) (mkEntryBin p)) ((e + 1) % N)
      (if (e + 1) % N = s then (s + 1) % N else s)]
    rfl

theorem write_fold_char (N : Nat) (hN : 0 < N) (S : List PayloadBin) :
    (write_fold N S (emptyDisk, 0, 0)).2.1 = S.length % N ∧
    (write_fold N S (emptyDisk, 0, 0)).2.2 = startAfter N S.length ∧
    (write_fold N S (emptyDisk, 0, 0)).1.header = none ∧
    ∀ j, j < N →
      (write_fold N S (emptyDisk, 0, 0)).1.slots (index_to_offset N j) =
        Option.map mkEntryBin (pickLast N S j) := by
  induction S using List.reverseRecOn with
  | nil =>
    refine ⟨by simp [write_fold], ?_, rfl, ?_⟩
    · show (0 : Nat) = startAfter N 0
      unfold startAfter
      rw [if_pos hN]
    · intro j _
      show (none : Option EntryBin) = Option.map mkEntryBin (pickLast N [] j)
      unfold pickLast
      simp
  | append_singleton T p IH =>
    obtain ⟨he, hs, hh, hslots⟩ := IH
    have hfold : write_fold N (T ++ [p]) (emptyDisk, 0, 0) =
        write_step N (write_fold N T (emptyDisk, 0, 0)) p := by
      unfold write_fold
      rw [List.foldl_append]
      rfl
    set W := write_fold N T (emptyDisk, 0, 0) with hW
    have hlen : (T ++ [p]).length = T.length + 1 := by simp
    have hmodlt : T.length % N < N := Nat.mod_lt _ hN
    have hnext : (W.2.1 + 1) % N = (T.length + 1) % N := by
      rw [he, mod_succ_eq]
    refine ⟨?_, ?_, ?_, ?_⟩
    · rw [hfold, hlen]
      show (W.2.1 + 1) % N = (T.length + 1) % N
      exact hnext
    · rw [hfold, hlen]
      show (if (W.2.1 + 1) % N = W.2.2 then (W.2.2 + 1) % N else W.2.2) =
        startAfter N (T.length + 1)
      rcases Nat.lt_trichotomy (T.length + 1) N with hlt | heq | hgt
      · have hm_lt : T.length < N := by omega
        have hs0 : W.2.2 = 0 := by
          rw [hs]
          unfold startAfter
          rw [if_pos hm_lt]
        have hne : (W.2.1 + 1) % N ≠ 0 := by
          rw [hnext, Nat.mod_eq_of_lt hlt]
          omega
        rw [hs0, if_neg hne]
        unfold startAfter
        rw [if_pos hlt]
      · have hm_lt : T.length < N := by omega
        have hs0 : W.2.2 = 0 := by
          rw [hs]
          unfold startAfter
          rw [if_pos hm_lt]
        have hz : (W.2.1 + 1) % N = 0 := by
          rw [hnext, ← heq, Nat.mod_self]
        rw [hs0, if_pos hz]
        unfold startAfter
        rw [if_neg (by omega)]
        congr 1
        omega
      · have hm_ge : ¬ T.length < N := by omega
        have hsm : W.2.2 = (T.length - N + 1) % N := by
          rw [hs]
          unfold startAfter
          rw [if_neg hm_ge]
        have hcond : (W.2.1 + 1) % N = W.2.2 := by
          rw [hnext, hsm]
          have h1 : N ≤ T.length + 1 := by omega
          rw [Nat.mod_eq_sub_mod h1]
          congr 1
          omega
        rw [if_pos hcond, hsm, mod_succ_eq]
        unfold startAfter
        rw [if_neg (by omega)]
        congr 1
        omega
    · rw [hfold]
      show (diskWriteSlot W.1 (index_to_offset N W.2.1) (mkEntryBin p)).header
        = none
      rw [diskWriteSlot_header]
      exact hh
    · intro j hj
      rw [hfold]
      show (diskWriteSlot W.1 (index_to_offset N W.2.1)
          (mkEntryBin p)).slots (index_to_offset N j) =
        Option.map mkEntryBin (pickLast N (T ++ [p]) j)
      by_cases hjm : j = T.length % N
      · have hoff : index_to_offset N j = index_to_offset N W.2.1 := by
          rw [hjm, he]
        rw [hoff, diskWriteSlot_same]
        unfold pickLast
        rw [if_pos (show j < (T ++ [p]).length by
          rw [hlen, hjm]
          have := Nat.mod_le T.length N
          omega)]
        have hidx : (T ++ [p]).length - 1 - (((T ++ [p]).length - 1 - j) % N)
            = T.length := by
          rw [hlen, hjm]
          simp only [Nat.add_sub_cancel]
          rw [sub_mod_self_zero, Nat.sub_zero]
        rw [hidx, List.get?_concat_length]
        rfl
      · have hwlt : W.2.1 < N := by
          rw [he]
          exact hmodlt
        have hoff : index_to_offset N j ≠ index_to_offset N W.2.1 := by
          intro hc
          exact hjm (by
            have := index_to_offset_inj hj hwlt hc
            rw [this, he])
        rw [diskWriteSlot_other _ _ _ _ hoff, hslots j hj]
        congr 1
        by_cases hjlt : j < T.length
        · unfold pickLast
          rw [if_pos hjlt,
            if_pos (show j < (T ++ [p]).length by rw [hlen]; omega)]
          set t := (T.length - 1 - j) % N with ht
          have htlt : t < N := by
            rw [ht]
            exact Nat.mod_lt _ hN
          by_cases htop : t + 1 = N
          · exfalso
            apply hjm
            have h4 : (T.length - 1 - j) ≡ t [MOD N] := by
              rw [ht]
              exact (Nat.mod_modEq _ _).symm
            have h5 : T.length ≡ t + (1 + j) [MOD N] := by
              have h1 : T.length = (T.length - 1 - j) + (1 + j) := by omega
              calc T.length = (T.length - 1 - j) + (1 + j) := h1
                _ ≡ t + (1 + j) [MOD N] := Nat.ModEq.add_right _ h4
            have h6 : t + (1 + j) = N + j := by omega
            rw [h6] at h5
            have h7 : (N + j) % N = j % N := Nat.add_mod_left N j
            have h8 : T.length ≡ j [MOD N] := h5.trans h7
            have h9 : T.length % N = j := mod_eq_of_modeq_lt h8 hj
            omega
          · have hmj : (T.length - j) % N = t + 1 := by
              have h1 : T.length - j = (T.length - 1 - j) + 1 := by omega
              rw [h1, ← mod_succ_eq, ← ht]
              exact Nat.mod_eq_of_lt (by omega)
            rw [hlen]
            have h2 : T.length + 1 - 1 - ((T.length + 1 - 1 - j) % N) =
                T.length - ((T.length - j) % N) := by
              simp only [Nat.add_sub_cancel]
            rw [h2, hmj]
            rw [List.get?_append (show T.length - (t + 1) < T.length by
              omega)]
            congr 1
            omega
        · unfold pickLast
          rw [if_neg hjlt, if_neg (by
            rw [hlen]
            intro hc
            have hje : j = T.length := by omega
            exact hjm (by rw [hje, Nat.mod_eq_of_lt (by omega)]))]

theorem replay_collect_of_slots (N : Nat) (d : Disk) :
    ∀ (P : List PayloadBin) (i : Nat),
      (∀ t, t < P.length → ∀ p, P.get? t = some p →
        d.slots (index_to_offset N (i + t)) = some (mkEntryBin p)) →
      (∀ p ∈ P, p.action ≠ [] ∧ p.ino ≠ 0) →
      replay_collect_loop N d P.length i = (P, true)
  | [], _, _, _ => rfl
  | p :: P', i, hslots, hsane => by
    have h0 : d.slots (index_to_offset N i) = some (mkEntryBin p) := by
      have := hslots 0 (by simp) p rfl
      rwa [Nat.add_zero] at this
    have hA := hsane p (List.mem_cons_self _ _)
    show replay_collect_loop N d (P'.length + 1) i = (p :: P', true)
    unfold replay_collect_loop
    rw [h0]
    dsimp only
    rw [if_neg (show ¬ (mkEntryBin p).magic ≠ JOURNAL_MAGIC from
      fun hc => hc rfl)]
    rw [if_neg (show ¬ (mkEntryBin p).version ≠ JOURNAL_VERSION from
      fun hc => hc rfl)]
    rw [if_neg (show ¬ crc32 (payloadBytes (mkEntryBin p).payload) ≠
      (mkEntryBin p).crc32 from fun hc => hc rfl)]
    rw [if_neg (show ¬ (mkEntryBin p).payload.action.length = 0 from
      fun hc => hA.1 (List.length_eq_zero.mp hc))]
    rw [if_neg (show ¬ (mkEntryBin p).payload.ino = 0 from fun hc => hA.2 hc)]
    have hIH : replay_collect_loop N d P'.length ((i + 1) % N) =
        (P', true) := by
      apply replay_collect_of_slots N d P'
      · intro t ht q hq
        have hoff : index_to_offset N ((i + 1) % N + t) =
            index_to_offset N (i + (t + 1)) := by
          unfold index_to_offset
          have h9 : i + 1 + t = i + (t + 1) := by omega
          rw [mod_add_left_mod, h9]
        rw [hoff]
        exact hslots (t + 1) (by simpa using ht) q hq
      · intro q hq
        exact hsane q (List.mem_cons_of_mem _ hq)
    rw [hIH]
    rfl

theorem ring_full_steps (N k : Nat) (hN : 0 < N) :
    (k % N + N - (k + 1) % N) % N = N - 1 := by
  have hr : k % N < N := Nat.mod_lt _ hN
  by_cases htop : k % N + 1 = N
  · have h1 : (k + 1) % N = 0 := by
      rw [← mod_succ_eq, htop, Nat.mod_self]
    rw [h1, Nat.sub_zero, Nat.add_mod_right,
      Nat.mod_mod_of_dvd k (dvd_refl N)]
    omega
  · have h1 : (k + 1) % N = k % N + 1 := by
      rw [← mod_succ_eq]
      exact Nat.mod_eq_of_lt (by omega)
    rw [h1]
    have h2 : k % N + N - (k % N + 1) = N - 1 := by omega
    rw [h2]
    exact Nat.mod_eq_of_lt (by omega)

theorem journal_write_raw_allOk_run (N : Nat) (S : List PayloadBin)
    (w : WriterSt) :
    journal_write_raw IOEnv.allOk N w emptyDisk
        (S.map fun p => (p, payloadBinSize)) =
      (true, { w with replayed_once := true },
        { (write_fold N S (emptyDisk, 0, 0)).1 with
          header := some (journal_mk_header
            (write_fold N S (emptyDisk, 0, 0)).2.2
            (write_fold N S (emptyDisk, 0, 0)).2.1) }) := by
  unfold journal_write_raw
  rw [if_neg (by decide : ¬ (IOEnv.allOk.fd_ok = false))]
  rw [show initialize_indices IOEnv.allOk N emptyDisk = some (0, 0) from rfl]
  dsimp only
  rw [write_raw_loop_allOk N S 0 emptyDisk 0 0]
  rfl

theorem read_header_mk (N a b : Nat) (d1 : Disk) (ha : a < N) (hb : b < N) :
    read_header_indices N
      { d1 with header := some (journal_mk_header a b) } = some (a, b) := by
  unfold read_header_indices
  dsimp only
  rw [if_neg (show ¬ (crc32 (headerBytes
      { journal_mk_header a b with crc32 := 0 }) ≠
        (journal_mk_header a b).crc32 ∨
      (journal_mk_header a b).magic ≠ JOURNAL_MAGIC ∨
      (journal_mk_header a b).version ≠ JOURNAL_VERSION) by
    intro hc
    rcases hc with hc | hc | hc
    · exact hc rfl
    · exact hc rfl
    · exact hc rfl)]
  rw [if_neg (show ¬ (N ≤ (journal_mk_header a b).start_index ∨
      N ≤ (journal_mk_header a b).end_index) by
    intro hc
    rcases hc with hc | hc
    · exact absurd hc (by show ¬ N ≤ a; omega)
    · exact absurd hc (by show ¬ N ≤ b; omega))]
  rfl

theorem journal_replay_from_file_eq (N : Nat) (d : Disk) (a b : Nat)
    (h : read_header_indices N d = some (a, b)) :
    journal_replay_from_file N d =
      some (replay_collect_loop N d ((b + N - a) % N) a) := by
  unfold journal_replay_from_file
  rw [h]

theorem journal_replay_from_file_mk (N a b : Nat) (d1 : Disk) (ha : a < N)
    (hb : b < N) :
    journal_replay_from_file N
        { d1 with header := some (journal_mk_header a b) } =
      some (replay_collect_loop N
        { d1 with header := some (journal_mk_header a b) }
        ((b + N - a) % N) a) :=
  journal_replay_from_file_eq N _ a b (read_header_mk N a b d1 ha hb)

/-- Claim C6, amended: for a sequence `S` of payloads that each pass replay
sanity (non-empty `action`, nonzero `ino`), with `S` within the ring's
usable capacity — at most `N - 1` entries, since a ring whose write would
make `next == start` evicts — writing `S` to an empty journal through
`journal_write_raw` and replaying the device yields exactly `S` in write
order with a successful validation. -/
theorem journal_round_trip (N : Nat) (hN : 0 < N) (S : List PayloadBin)
    (hlen : S.length ≤ N - 1)
    (hsane : ∀ p ∈ S, p.action ≠ [] ∧ p.ino ≠ 0) (w : WriterSt) :
    ∃ w' d', journal_write_raw IOEnv.allOk N w emptyDisk
        (S.map fun p => (p, payloadBinSize)) = (true, w', d') ∧
      journal_replay_from_file N d' = some (S, true) := by
  have hL : S.length < N := by omega
  obtain ⟨he, hs, hh, hslots⟩ := write_fold_char N hN S
  have hrun := journal_write_raw_allOk_run N S w
  refine ⟨{ w with replayed_once := true }, _, hrun, ?_⟩
  have hS1 : (write_fold N S (emptyDisk, 0, 0)).2.1 = S.length := by
    rw [he]
    exact Nat.mod_eq_of_lt hL
  have hS2 : (write_fold N S (emptyDisk, 0, 0)).2.2 = 0 := by
    rw [hs]
    unfold startAfter
    rw [if_pos hL]
  rw [hS1, hS2]
  rw [journal_replay_from_file_mk N 0 S.length
    (write_fold N S (emptyDisk, 0, 0)).1 hN hL]
  have hsteps : (S.length + N - 0) % N = S.length := by
    rw [Nat.sub_zero, Nat.add_mod_right]
    exact Nat.mod_eq_of_lt hL
  rw [hsteps]
  have hwalk : replay_collect_loop N
      { (write_fold N S (emptyDisk, 0, 0)).1 with
        header := some (journal_mk_header 0 S.length) } S.length 0 =
      (S, true) := by
    refine replay_collect_of_slots N
      { (write_fold N S (emptyDisk, 0, 0)).1 with
        header := some (journal_mk_header 0 S.length) } S 0 ?_ hsane
    intro t ht q hq
    show (write_fold N S (emptyDisk, 0, 0)).1.slots
      (index_to_offset N (0 + t)) = some (mkEntryBin q)
    rw [Nat.zero_add]
    have hrow := hslots t (by omega)
    have hplast : pickLast N S t = S.get? t := by
      unfold pickLast
      rw [if_pos ht]
      congr 1
      rw [Nat.mod_eq_of_lt (by omega)]
      omega
    rw [hrow, hplast, hq]
    rfl
  rw [hwalk]

/-- Witness for C6's amended theorem at a one-payload sequence in a ring of
size 4. -/
theorem journal_round_trip_witness :
    ∃ w' d', journal_write_raw IOEnv.allOk 4 writerInit emptyDisk
        ([samplePayload 1 100 10].map fun p => (p, payloadBinSize)) =
      (true, w', d') ∧
      journal_replay_from_file 4 d' = some ([samplePayload 1 100 10], true) :=
  journal_round_trip 4 (by decide) [samplePayload 1 100 10] (by decide)
    (by decide) writerInit

/-- Counterexample to claim C6 as stated: a single payload whose `action`
string is empty is accepted by the batch writer, but replay rejects it at
the payload sanity check, so replaying yields the empty list with a failed
validation instead of `S`. -/
theorem journal_round_trip_counterexample :
    journal_replay_from_file 4 emptyActionRun.2.2 = some ([], false) ∧
    ([] : List PayloadBin) ≠ [emptyActionPayload] := by
  constructor
  · decide
  · decide

/-- Claim C1, amended: writing `N + k` payloads (`k ≥ 1`) into an empty
ring of size `N` leaves the persisted header with
`start_index = (k + 1) % N` and `end_index = k % N`, and replay yields the
last `N - 1` payloads (positions `k + 1` onward) in ingest order — the ring
keeps at most `N - 1` reachable entries, since the write that would close
the ring advances `start_index`.  For the concrete scenario `N = 4` with
six payloads carrying tx_ids 1..6 this gives `start_index = 3`,
`end_index = 2`, and replay yields tx_ids 4..6. -/
theorem journal_ring_eviction (N k : Nat) (hN : 0 < N) (hk : 1 ≤ k)
    (S : List PayloadBin) (hlen : S.length = N + k)
    (hsane : ∀ p ∈ S, p.action ≠ [] ∧ p.ino ≠ 0) (w : WriterSt) :
    ∃ w' d', journal_write_raw IOEnv.allOk N w emptyDisk
        (S.map fun p => (p, payloadBinSize)) = (true, w', d') ∧
      d'.header = some (journal_mk_header ((k + 1) % N) (k % N)) ∧
      journal_replay_from_file N d' = some (S.drop (k + 1), true) := by
  obtain ⟨he, hs, hh, hslots⟩ := write_fold_char N hN S
  have hrun := journal_write_raw_allOk_run N S w
  have hE : (write_fold N S (emptyDisk, 0, 0)).2.1 = k % N := by
    rw [he, hlen]
    exact Nat.add_mod_left N k
  have hS : (write_fold N S (emptyDisk, 0, 0)).2.2 = (k + 1) % N := by
    rw [hs, hlen]
    unfold startAfter
    rw [if_neg (by omega)]
    congr 1
    omega
  refine ⟨{ w with replayed_once := true }, _, hrun, ?_, ?_⟩
  · show some (journal_mk_header _ _) = _
    rw [hE, hS]
  · rw [hE, hS]
    rw [journal_replay_from_file_mk N ((k + 1) % N) (k % N)
      (write_fold N S (emptyDisk, 0, 0)).1 (Nat.mod_lt _ hN)
      (Nat.mod_lt _ hN)]
    rw [ring_full_steps N k hN]
    have hPlen : (S.drop (k + 1)).length = N - 1 := by
      rw [List.length_drop, hlen]
      omega
    have hslotsH : ∀ t, t < (S.drop (k + 1)).length → ∀ q,
        (S.drop (k + 1)).get? t = some q →
        ({ (write_fold N S (emptyDisk, 0, 0)).1 with
           header := some (journal_mk_header ((k + 1) % N) (k % N)) } :
          Disk).slots (index_to_offset N ((k + 1) % N + t)) =
          some (mkEntryBin q) := by
      intro t ht q hq
      have htN : t < N - 1 := hPlen ▸ ht
      show (write_fold N S (emptyDisk, 0, 0)).1.slots
        (index_to_offset N ((k + 1) % N + t)) = some (mkEntryBin q)
      have hoff : index_to_offset N ((k + 1) % N + t) =
          index_to_offset N ((k + 1 + t) % N) := by
        unfold index_to_offset
        rw [mod_add_left_mod, Nat.mod_mod_of_dvd _ (dvd_refl N)]
      rw [hoff]
      have hjlt : (k + 1 + t) % N < N := Nat.mod_lt _ hN
      rw [hslots ((k + 1 + t) % N) hjlt]
      have hplast : pickLast N S ((k + 1 + t) % N) = S.get? (k + 1 + t) := by
        unfold pickLast
        rw [if_pos (show (k + 1 + t) % N < S.length by rw [hlen]; omega)]
        congr 1
        have hcong : (k + 1 + t) % N ≡ k + 1 + t [MOD N] := Nat.mod_modEq _ _
        have hsum : (S.length - 1 - (k + 1 + t) % N) + (k + 1 + t) % N =
            (N - 2 - t) + (k + 1 + t) := by
          rw [hlen]
          omega
        have hmeq : (S.length - 1 - (k + 1 + t) % N) ≡ (N - 2 - t) [MOD N] :=
          Nat.ModEq.add_right_cancel hcong (by rw [hsum])
        have hmod : (S.length - 1 - (k + 1 + t) % N) % N = N - 2 - t :=
          mod_eq_of_modeq_lt hmeq (by omega)
        rw [hmod, hlen]
        omega
      rw [hplast]
      rw [List.get?_drop] at hq
      rw [hq]
      rfl
    have hwalk := replay_collect_of_slots N
      { (write_fold N S (emptyDisk, 0, 0)).1 with
        header := some (journal_mk_header ((k + 1) % N) (k % N)) }
      (S.drop (k + 1)) ((k + 1) % N) hslotsH
      (fun q hq => hsane q (List.drop_subset (k + 1) S hq))
    rw [← hPlen, hwalk]

/-- Witness for C1's amended theorem at the concrete scenario: ring size 4,
six payloads (tx_ids 1..6), so `N = 4`, `k = 2`. -/
theorem journal_ring_eviction_witness :
    ∃ w' d', journal_write_raw IOEnv.allOk 4 writerInit emptyDisk
        (overflowPayloads.map fun p => (p, payloadBinSize)) =
      (true, w', d') ∧
      d'.header = some (journal_mk_header ((2 + 1) % 4) (2 % 4)) ∧
      journal_replay_from_file 4 d' =
        some (overflowPayloads.drop (2 + 1), true) :=
  journal_ring_eviction 4 2 (by decide) (by decide) overflowPayloads
    (by decide) (by decide) writerInit

/-- Counterexample to claim C1 as stated: the six-payload run leaves the
header at `(start_index, end_index) = (3, 2)` — not `(2, 2)` — and replay
yields the three payloads with tx_ids 4..6, not the four with 3..6. -/
theorem journal_ring_eviction_counterexample :
    (overflowRun.2.2.header.map fun h => (h.start_index, h.end_index)) =
      some (3, 2) ∧
    (journal_replay_from_file 4 overflowRun.2.2).map
      (fun r => r.1.map PayloadBin.tx_id) = some [4, 5, 6] ∧
    ((3 : Nat), (2 : Nat)) ≠ (2, 2) ∧
    some [4, 5, 6] ≠ some [(3 : Nat), 4, 5, 6] := by
  refine ⟨by decide, by decide, by decide, by decide⟩
